import Mathlib

/-!
# Verification of the OSINT recon tool against its specification

Shallow embedding of `src/main.rs`. The program is a single-shot CLI:
dispatch on a lookup kind, fetch JSON from a provider with a bounded
retry loop, save a report file, and call a chat-completion summarizer.

Side effects (HTTP requests, sleeps, stdout/stderr lines, file writes,
chat calls) are modelled as an explicit event trace. The HTTP transport
and the chat service are oracles supplied as inputs. `serde_json`
values are modelled by the inductive `Json` below (numbers as integers),
with a compact serializer (`renderVal`, mirroring `Value::to_string`)
and a recursive-descent parser (`parseVal`, mirroring
`serde_json::from_str`).
-/

namespace Osint

/-- Model of `serde_json::Value`: arbitrary JSON data. Numbers are
modelled as integers; objects are ordered association lists. -/
inductive Json where
  | null : Json
  | bool : Bool → Json
  | num : Int → Json
  | str : String → Json
  | arr : List Json → Json
  | obj : List (String × Json) → Json

/-! ## Decimal digits -/

/-- The decimal digit character for `n < 10`. -/
def digitChar : Nat → Char
  | 0 => '0' | 1 => '1' | 2 => '2' | 3 => '3' | 4 => '4'
  | 5 => '5' | 6 => '6' | 7 => '7' | 8 => '8' | _ => '9'

/-- Numeric value of a decimal digit character. -/
def digitVal (c : Char) : Nat := c.toNat - 48

/-- Decimal digits of `n`, most significant first. -/
def natDigits (n : Nat) : List Char :=
  if _h : n < 10 then [digitChar n]
  else natDigits (n / 10) ++ [digitChar (n % 10)]
  termination_by n
  decreasing_by exact Nat.div_lt_self (by omega) (by omega)

/-- Compact decimal rendering of an integer, as `serde_json` prints it. -/
def renderInt (n : Int) : List Char :=
  if n < 0 then '-' :: natDigits n.natAbs else natDigits n.natAbs

/-! ## Hexadecimal digits (for `\u00XX` escapes) -/

/-- Lower-case hexadecimal digit character for `n < 16`. -/
def hexChar : Nat → Char
  | 0 => '0' | 1 => '1' | 2 => '2' | 3 => '3' | 4 => '4'
  | 5 => '5' | 6 => '6' | 7 => '7' | 8 => '8' | 9 => '9'
  | 10 => 'a' | 11 => 'b' | 12 => 'c' | 13 => 'd' | 14 => 'e' | _ => 'f'

/-- Value of a hexadecimal digit character (either case), if any. -/
def hexVal (c : Char) : Option Nat :=
  if c = '0' then some 0 else if c = '1' then some 1
  else if c = '2' then some 2 else if c = '3' then some 3
  else if c = '4' then some 4 else if c = '5' then some 5
  else if c = '6' then some 6 else if c = '7' then some 7
  else if c = '8' then some 8 else if c = '9' then some 9
  else if c = 'a' ∨ c = 'A' then some 10
  else if c = 'b' ∨ c = 'B' then some 11
  else if c = 'c' ∨ c = 'C' then some 12
  else if c = 'd' ∨ c = 'D' then some 13
  else if c = 'e' ∨ c = 'E' then some 14
  else if c = 'f' ∨ c = 'F' then some 15
  else none

/-! ## String escaping, as `serde_json` serializes string contents -/

/-- Escape one character of a JSON string the way `serde_json` does:
quote and backslash get two-character escapes, the named control
characters get `\b \t \n \f \r`, all other control characters get
`\u00XX` with lower-case hex, and everything else is passed through. -/
def escapeChar (c : Char) : List Char :=
  if c = '"' then ['\\', '"']
  else if c = '\\' then ['\\', '\\']
  else if c = Char.ofNat 8 then ['\\', 'b']
  else if c = Char.ofNat 9 then ['\\', 't']
  else if c = Char.ofNat 10 then ['\\', 'n']
  else if c = Char.ofNat 12 then ['\\', 'f']
  else if c = Char.ofNat 13 then ['\\', 'r']
  else if c.toNat < 32 then
    ['\\', 'u', '0', '0', hexChar (c.toNat / 16), hexChar (c.toNat % 16)]
  else [c]

/-- Escape a whole string body (no surrounding quotes). -/
def escapeList : List Char → List Char
  | [] => []
  | c :: cs => escapeChar c ++ escapeList cs

/-! ## Parser primitives -/

/-- JSON insignificant whitespace. -/
def isWs (c : Char) : Bool :=
  c = ' ' ∨ c = Char.ofNat 9 ∨ c = Char.ofNat 10 ∨ c = Char.ofNat 13

/-- Drop leading JSON whitespace. -/
def skipWs : List Char → List Char
  | [] => []
  | c :: cs => if isWs c then skipWs cs else c :: cs

/-- Match an exact literal suffix, returning the remaining input. -/
def parseLit : List Char → List Char → Option (List Char)
  | [], input => some input
  | _ :: _, [] => none
  | l :: ls, c :: cs => if c = l then parseLit ls cs else none

/-- Cons a character onto the parsed-so-far part of a string result. -/
def mapCons (c : Char) : Option (List Char × List Char) → Option (List Char × List Char)
  | some (s, r) => some (c :: s, r)
  | none => none

/-- Parse the body of a JSON string after the opening quote, up to and
including the closing quote; returns the unescaped contents and the
remaining input. -/
def parseStringBody : List Char → Option (List Char × List Char)
  | [] => none
  | c :: cs =>
    if c = '"' then some ([], cs)
    else if c = '\\' then
      match cs with
      | [] => none
      | e :: cs2 =>
        if e = '"' then mapCons '"' (parseStringBody cs2)
        else if e = '\\' then mapCons '\\' (parseStringBody cs2)
        else if e = '/' then mapCons '/' (parseStringBody cs2)
        else if e = 'b' then mapCons (Char.ofNat 8) (parseStringBody cs2)
        else if e = 'f' then mapCons (Char.ofNat 12) (parseStringBody cs2)
        else if e = 'n' then mapCons (Char.ofNat 10) (parseStringBody cs2)
        else if e = 'r' then mapCons (Char.ofNat 13) (parseStringBody cs2)
        else if e = 't' then mapCons (Char.ofNat 9) (parseStringBody cs2)
        else if e = 'u' then
          match cs2 with
          | h1 :: h2 :: h3 :: h4 :: cs3 =>
            match hexVal h1, hexVal h2, hexVal h3, hexVal h4 with
            | some a, some b, some c2, some d =>
              mapCons (Char.ofNat (((a * 16 + b) * 16 + c2) * 16 + d)) (parseStringBody cs3)
            | _, _, _, _ => none
          | _ => none
        else none
    else if c.toNat < 32 then none
    else mapCons c (parseStringBody cs)

/-- Accumulate a maximal run of decimal digits. -/
def takeDigits : List Char → Nat → Nat × List Char
  | [], acc => (acc, [])
  | c :: cs, acc =>
    if c.isDigit then takeDigits cs (acc * 10 + digitVal c) else (acc, c :: cs)

/-- Parse a JSON integer: an optional minus sign followed by at least
one digit, consuming the maximal digit run. -/
def parseNumber : List Char → Option (Int × List Char)
  | [] => none
  | c :: cs =>
    if c = '-' then
      match cs with
      | [] => none
      | d :: _ =>
        if d.isDigit then
          let p := takeDigits cs 0
          some (-(p.1 : Int), p.2)
        else none
    else if c.isDigit then
      let p := takeDigits (c :: cs) 0
      some ((p.1 : Int), p.2)
    else none

/-- Parse a quoted object key followed by (possibly spaced) `:`. -/
def parseKeyColon (input : List Char) : Option (String × List Char) :=
  match input with
  | [] => none
  | d :: ds =>
    if d = '"' then
      match parseStringBody ds with
      | some (k, r) =>
        match skipWs r with
        | [] => none
        | e :: es => if e = ':' then some (String.mk k, es) else none
      | none => none
    else none

/-! ## Compact serialization, as `serde_json::Value::to_string` -/

/-- The keyword `null` as characters. -/
def kwNull : List Char := ['n', 'u', 'l', 'l']

/-- The keyword `true` as characters. -/
def kwTrue : List Char := ['t', 'r', 'u', 'e']

/-- The keyword `false` as characters. -/
def kwFalse : List Char := ['f', 'a', 'l', 's', 'e']

mutual

/-- Render a JSON value in the compact form `Value::to_string` uses
(no insignificant whitespace). -/
def renderVal : Json → List Char
  | .num n => renderInt n
  | .str s => '"' :: escapeList s.data ++ ['"']
  | .null => kwNull
  | .bool b => if b then kwTrue else kwFalse
  | .arr [] => ['[', ']']
  | .arr (x :: xs) => '[' :: renderVal x ++ renderArrTail xs ++ [']']
  | .obj [] => ['{', '}']
  | .obj (kv :: kvs) => '{' :: renderMember kv ++ renderObjTail kvs ++ ['}']

/-- Render one object member `"key":value`. -/
def renderMember : String × Json → List Char
  | (k, v) => '"' :: escapeList k.data ++ '"' :: ':' :: renderVal v

/-- Render `,elt` for each remaining array element. -/
def renderArrTail : List Json → List Char
  | [] => []
  | x :: xs => ',' :: renderVal x ++ renderArrTail xs

/-- Render `,member` for each remaining object member. -/
def renderObjTail : List (String × Json) → List Char
  | [] => []
  | kv :: kvs => ',' :: renderMember kv ++ renderObjTail kvs

end

/-! ## Recursive-descent JSON parser, as `serde_json::from_str` -/

mutual

/-- Parse one JSON value, skipping leading whitespace. The fuel
argument bounds the nesting the parser will follow. -/
def parseVal : Nat → List Char → Option (Json × List Char)
  | 0, _ => none
  | f + 1, input =>
    match skipWs input with
    | [] => none
    | c :: cs =>
      if c = 'n' then
        match parseLit ['u', 'l', 'l'] cs with
        | some r => some (Json.null, r)
        | none => none
      else if c = 't' then
        match parseLit ['r', 'u', 'e'] cs with
        | some r => some (Json.bool true, r)
        | none => none
      else if c = 'f' then
        match parseLit ['a', 'l', 's', 'e'] cs with
        | some r => some (Json.bool false, r)
        | none => none
      else if c = '"' then
        match parseStringBody cs with
        | some (s, r) => some (Json.str (String.mk s), r)
        | none => none
      else if c = '[' then
        match skipWs cs with
        | [] => none
        | d :: ds =>
          if d = ']' then some (Json.arr [], ds)
          else
            match parseVal f (d :: ds) with
            | some (v, r) => parseItems f [v] r
            | none => none
      else if c = '{' then
        match skipWs cs with
        | [] => none
        | d :: ds =>
          if d = '}' then some (Json.obj [], ds)
          else
            match parseKeyColon (d :: ds) with
            | some (k, r) =>
              match parseVal f r with
              | some (v, r2) => parseMembers f [(k, v)] r2
              | none => none
            | none => none
      else if c = '-' ∨ c.isDigit then
        match parseNumber (c :: cs) with
        | some (n, r) => some (Json.num n, r)
        | none => none
      else none

/-- Parse the remainder of an array after its first element:
`,elt`* `]`. `acc` holds the elements parsed so far, reversed. -/
def parseItems : Nat → List Json → List Char → Option (Json × List Char)
  | 0, _, _ => none
  | f + 1, acc, input =>
    match skipWs input with
    | [] => none
    | d :: ds =>
      if d = ']' then some (Json.arr acc.reverse, ds)
      else if d = ',' then
        match parseVal f ds with
        | some (v, r) => parseItems f (v :: acc) r
        | none => none
      else none

/-- Parse the remainder of an object after its first member:
`,member`* `}`. `acc` holds the members parsed so far, reversed. -/
def parseMembers : Nat → List (String × Json) → List Char → Option (Json × List Char)
  | 0, _, _ => none
  | f + 1, acc, input =>
    match skipWs input with
    | [] => none
    | d :: ds =>
      if d = '}' then some (Json.obj acc.reverse, ds)
      else if d = ',' then
        match parseKeyColon ds with
        | some (k, r) =>
          match parseVal f r with
          | some (v, r2) => parseMembers f ((k, v) :: acc) r2
          | none => none
        | none => none
      else none

end

/-- Serialize a JSON value to a string (`Value::to_string` / `Display`). -/
def renderJsonStr (v : Json) : String := String.mk (renderVal v)

/-- Parse a whole JSON document (`serde_json::from_str::<Value>`):
one value with surrounding whitespace, nothing else. -/
def parseJsonStr (s : String) : Option Json :=
  match parseVal (s.data.length + 1) s.data with
  | some (v, rest) => if skipWs rest = [] then some v else none
  | none => none

/-! ## Round-trip lemmas: the parser inverts the serializer -/

theorem parseLit_append (ls rest : List Char) :
    parseLit ls (ls ++ rest) = some rest := by
  induction ls with
  | nil => rfl
  | cons l ls ih => simp [parseLit, ih]

theorem hexVal_hexChar (n : Nat) (h : n < 16) : hexVal (hexChar n) = some n := by
  interval_cases n <;> rfl

/-- Facts about decimal digit characters used while reparsing numbers. -/
theorem digitChar_facts (n : Nat) (h : n < 10) :
    digitVal (digitChar n) = n ∧ (digitChar n).isDigit = true ∧
    isWs (digitChar n) = false ∧ digitChar n ≠ ']' ∧ digitChar n ≠ '}' ∧
    digitChar n ≠ 'n' ∧ digitChar n ≠ 't' ∧ digitChar n ≠ 'f' ∧
    digitChar n ≠ '"' ∧ digitChar n ≠ '[' ∧ digitChar n ≠ '{' ∧
    digitChar n ≠ ',' := by
  interval_cases n <;> decide

theorem skipWs_cons {c : Char} (cs : List Char) (h : isWs c = false) :
    skipWs (c :: cs) = c :: cs := by
  simp [skipWs, h]

theorem parseStringBody_escape (cs rest : List Char) :
    parseStringBody (escapeList cs ++ '"' :: rest) = some (cs, rest) := by
  induction cs with
  | nil =>
    show parseStringBody ('"' :: rest) = _
    rw [parseStringBody.eq_def]
    simp
  | cons c cs ih =>
    show parseStringBody ((escapeChar c ++ escapeList cs) ++ '"' :: rest) = _
    rw [List.append_assoc]
    by_cases h1 : c = '"'
    · rw [show escapeChar c = ['\\', '"'] by simp [escapeChar, h1]]
      rw [List.cons_append, List.cons_append, List.nil_append, parseStringBody.eq_def]
      simp [mapCons, ih, h1]
    · by_cases h2 : c = '\\'
      · rw [show escapeChar c = ['\\', '\\'] by simp [escapeChar, h1, h2]]
        rw [List.cons_append, List.cons_append, List.nil_append, parseStringBody.eq_def]
        simp [mapCons, ih, h2]
      · by_cases h3 : c = Char.ofNat 8
        · rw [show escapeChar c = ['\\', 'b'] by simp [escapeChar, h1, h2, h3]]
          rw [List.cons_append, List.cons_append, List.nil_append, parseStringBody.eq_def]
          simp [mapCons, ih, h3]
        · by_cases h4 : c = Char.ofNat 9
          · rw [show escapeChar c = ['\\', 't'] by simp [escapeChar, h1, h2, h3, h4]]
            rw [List.cons_append, List.cons_append, List.nil_append, parseStringBody.eq_def]
            simp [mapCons, ih, h4]
          · by_cases h5 : c = Char.ofNat 10
            · rw [show escapeChar c = ['\\', 'n'] by simp [escapeChar, h1, h2, h3, h4, h5]]
              rw [List.cons_append, List.cons_append, List.nil_append, parseStringBody.eq_def]
              simp [mapCons, ih, h5]
            · by_cases h6 : c = Char.ofNat 12
              · rw [show escapeChar c = ['\\', 'f'] by simp [escapeChar, h1, h2, h3, h4, h5, h6]]
                rw [List.cons_append, List.cons_append, List.nil_append, parseStringBody.eq_def]
                simp [mapCons, ih, h6]
              · by_cases h7 : c = Char.ofNat 13
                · rw [show escapeChar c = ['\\', 'r'] by
                    simp [escapeChar, h1, h2, h3, h4, h5, h6, h7]]
                  rw [List.cons_append, List.cons_append, List.nil_append,
                    parseStringBody.eq_def]
                  simp [mapCons, ih, h7]
                · by_cases h8 : c.toNat < 32
                  · have hdiv : c.toNat / 16 < 16 := by omega
                    have hmod : c.toNat % 16 < 16 := by omega
                    have h0 : hexVal '0' = some 0 := rfl
                    have hmn : c.toNat / 16 * 16 + c.toNat % 16 = c.toNat := by omega
                    rw [show escapeChar c =
                        ['\\', 'u', '0', '0', hexChar (c.toNat / 16), hexChar (c.toNat % 16)] by
                      simp [escapeChar, h1, h2, h3, h4, h5, h6, h7, h8]]
                    simp only [List.cons_append, List.nil_append]
                    rw [parseStringBody.eq_def]
                    simp [mapCons, ih, h0, hexVal_hexChar _ hdiv, hexVal_hexChar _ hmod,
                      hmn, Char.ofNat_toNat]
                  · rw [show escapeChar c = [c] by simp [escapeChar, h1, h2, h3, h4, h5, h6, h7, h8]]
                    rw [List.cons_append, List.nil_append, parseStringBody.eq_def]
                    simp [mapCons, ih, h1, h2, h8]

/-- The next input character (if any) is not a digit, so a maximal
digit run ends here. -/
def delimOk : List Char → Bool
  | [] => true
  | c :: _ => !c.isDigit

theorem takeDigits_stop (rest : List Char) (acc : Nat) (h : delimOk rest = true) :
    takeDigits rest acc = (acc, rest) := by
  cases rest with
  | nil => rfl
  | cons c cs =>
    simp only [delimOk, Bool.not_eq_true'] at h
    simp [takeDigits, h]

theorem takeDigits_natDigits (n : Nat) : ∀ acc rest,
    takeDigits (natDigits n ++ rest) acc =
      takeDigits rest (acc * 10 ^ (natDigits n).length + n) := by
  induction n using Nat.strong_induction_on with
  | _ n ih =>
    intro acc rest
    by_cases h : n < 10
    · rw [natDigits, dif_pos h]
      obtain ⟨hval, hdig, -⟩ := digitChar_facts n h
      simp [takeDigits, hdig, hval]
    · rw [natDigits, dif_neg h]
      have hlt : n / 10 < n := Nat.div_lt_self (by omega) (by omega)
      rw [List.append_assoc, List.singleton_append,
        ih (n / 10) hlt acc (digitChar (n % 10) :: rest)]
      obtain ⟨hval, hdig, -⟩ := digitChar_facts (n % 10) (by omega)
      rw [takeDigits.eq_def]
      simp only [hdig, if_true, hval, List.length_append, List.length_cons,
        List.length_nil]
      congr 1
      have harith : 10 ^ ((natDigits (n / 10)).length + (0 + 1)) =
          10 ^ (natDigits (n / 10)).length * 10 := by rw [pow_succ]
      rw [harith]
      have := Nat.div_add_mod n 10
      ring_nf
      omega

theorem natDigits_head (n : Nat) :
    ∃ k ds, k < 10 ∧ natDigits n = digitChar k :: ds := by
  induction n using Nat.strong_induction_on with
  | _ n ih =>
    by_cases h : n < 10
    · exact ⟨n, [], h, by rw [natDigits, dif_pos h]⟩
    · obtain ⟨k, ds, hk, hds⟩ := ih (n / 10) (Nat.div_lt_self (by omega) (by omega))
      exact ⟨k, ds ++ [digitChar (n % 10)], hk, by rw [natDigits, dif_neg h, hds]; simp⟩

theorem parseNumber_renderInt (n : Int) (rest : List Char) (h : delimOk rest = true) :
    parseNumber (renderInt n ++ rest) = some (n, rest) := by
  by_cases hn : n < 0
  · rw [renderInt, if_pos hn]
    obtain ⟨k, ds, hk, hds⟩ := natDigits_head n.natAbs
    obtain ⟨-, hdig, -, -, -, -, -, -, -, -, -, -⟩ := digitChar_facts k hk
    rw [List.cons_append, parseNumber.eq_def]
    simp only [hds, List.cons_append]
    rw [← List.cons_append, ← hds]
    have hminus : ('-' : Char) = '-' := rfl
    simp only [if_pos hminus, hds, List.cons_append]
    simp only [hdig, if_pos]
    rw [← List.cons_append, ← hds, takeDigits_natDigits, takeDigits_stop rest _ h]
    simp only [Nat.zero_mul, Nat.zero_add]
    have : -(n.natAbs : Int) = n := by omega
    rw [this]
  · rw [renderInt, if_neg hn]
    obtain ⟨k, ds, hk, hds⟩ := natDigits_head n.natAbs
    obtain ⟨-, hdig, -, -, -, -, -, -, -, -, -, -⟩ := digitChar_facts k hk
    rw [parseNumber.eq_def]
    simp only [hds, List.cons_append]
    have hnotminus : digitChar k ≠ '-' := by
      interval_cases k <;> decide
    simp only [hnotminus, if_neg, if_false, hdig, if_pos, if_true]
    rw [← List.cons_append, ← hds, takeDigits_natDigits, takeDigits_stop rest _ h]
    simp only [Nat.zero_mul, Nat.zero_add]
    have : ((n.natAbs : Int)) = n := by omega
    rw [this]

/-! ## Unfolding equations for the mutual serializer -/

@[simp] theorem renderVal_null : renderVal Json.null = ['n', 'u', 'l', 'l'] := by
  rw [renderVal.eq_def]
  rfl

@[simp] theorem renderVal_true : renderVal (Json.bool true) = ['t', 'r', 'u', 'e'] := by
  rw [renderVal.eq_def]
  rfl

@[simp] theorem renderVal_false :
    renderVal (Json.bool false) = ['f', 'a', 'l', 's', 'e'] := by
  rw [renderVal.eq_def]
  rfl

@[simp] theorem renderVal_num (n : Int) : renderVal (Json.num n) = renderInt n := by
  rw [renderVal.eq_def]

@[simp] theorem renderVal_str (s : String) :
    renderVal (Json.str s) = '"' :: escapeList s.data ++ ['"'] := by
  rw [renderVal.eq_def]

@[simp] theorem renderVal_arr_nil : renderVal (Json.arr []) = ['[', ']'] := by
  rw [renderVal.eq_def]

@[simp] theorem renderVal_arr_cons (x : Json) (xs : List Json) :
    renderVal (Json.arr (x :: xs)) = '[' :: renderVal x ++ renderArrTail xs ++ [']'] := by
  rw [renderVal.eq_def]

@[simp] theorem renderVal_obj_nil : renderVal (Json.obj []) = ['{', '}'] := by
  rw [renderVal.eq_def]

@[simp] theorem renderVal_obj_cons (kv : String × Json) (kvs : List (String × Json)) :
    renderVal (Json.obj (kv :: kvs)) =
      '{' :: renderMember kv ++ renderObjTail kvs ++ ['}'] := by
  rw [renderVal.eq_def]

@[simp] theorem renderMember_def (k : String) (v : Json) :
    renderMember (k, v) = '"' :: escapeList k.data ++ '"' :: ':' :: renderVal v := by
  rw [renderMember.eq_def]

@[simp] theorem renderArrTail_nil : renderArrTail [] = [] := by
  rw [renderArrTail.eq_def]

@[simp] theorem renderArrTail_cons (x : Json) (xs : List Json) :
    renderArrTail (x :: xs) = ',' :: renderVal x ++ renderArrTail xs := by
  rw [renderArrTail.eq_def]

@[simp] theorem renderObjTail_nil : renderObjTail [] = [] := by
  rw [renderObjTail.eq_def]

@[simp] theorem renderObjTail_cons (kv : String × Json) (kvs : List (String × Json)) :
    renderObjTail (kv :: kvs) = ',' :: renderMember kv ++ renderObjTail kvs := by
  rw [renderObjTail.eq_def]

/-! ## Key parsing and head-character facts -/

theorem parseKeyColon_render (k : String) (tail : List Char) :
    parseKeyColon ('"' :: (escapeList k.data ++ '"' :: ':' :: tail)) = some (k, tail) := by
  rw [parseKeyColon.eq_def]
  simp only [if_pos]
  rw [parseStringBody_escape k.data (':' :: tail)]
  have : skipWs (':' :: tail) = ':' :: tail := skipWs_cons tail (by decide)
  simp [this]

/-- The first character of any rendered JSON value: never whitespace and
never a closing bracket, so the parser's lookahead is unambiguous. -/
theorem renderVal_head (v : Json) : ∃ c cs, renderVal v = c :: cs ∧
    isWs c = false ∧ c ≠ ']' ∧ c ≠ '}' := by
  cases v with
  | null => exact ⟨'n', _, renderVal_null, by decide, by decide, by decide⟩
  | bool b =>
    cases b with
    | true => exact ⟨'t', _, renderVal_true, by decide, by decide, by decide⟩
    | false => exact ⟨'f', _, renderVal_false, by decide, by decide, by decide⟩
  | num n =>
    rw [renderVal_num, renderInt]
    by_cases hn : n < 0
    · exact ⟨'-', _, by rw [if_pos hn], by decide, by decide, by decide⟩
    · obtain ⟨k, ds, hk, hds⟩ := natDigits_head n.natAbs
      obtain ⟨-, -, hws, hbrk, hbrc, -⟩ := digitChar_facts k hk
      exact ⟨digitChar k, ds, by rw [if_neg hn, hds], hws, hbrk, hbrc⟩
  | str s => exact ⟨'"', _, renderVal_str s, by decide, by decide, by decide⟩
  | arr xs =>
    cases xs with
    | nil => exact ⟨'[', _, renderVal_arr_nil, by decide, by decide, by decide⟩
    | cons x xs => exact ⟨'[', _, renderVal_arr_cons x xs, by decide, by decide, by decide⟩
  | obj kvs =>
    cases kvs with
    | nil => exact ⟨'{', _, renderVal_obj_nil, by decide, by decide, by decide⟩
    | cons kv kvs => exact ⟨'{', _, renderVal_obj_cons kv kvs, by decide, by decide, by decide⟩

/-- After an array element or object member, the rendering continues
with `,`, `]` or `}` — never a digit. -/
theorem delimOk_arrTail (xs : List Json) (rest : List Char) :
    delimOk (renderArrTail xs ++ ']' :: rest) = true := by
  cases xs with
  | nil => simp [delimOk]
  | cons x xs => simp [delimOk]

theorem delimOk_objTail (kvs : List (String × Json)) (rest : List Char) :
    delimOk (renderObjTail kvs ++ '}' :: rest) = true := by
  cases kvs with
  | nil => simp [delimOk]
  | cons kv kvs => simp [delimOk]

/-- Master reparse lemma: with enough fuel, the parser returns exactly
the value the serializer printed, leaving the rest of the input intact.
Proved for values, array tails and object tails simultaneously by
strong induction on the fuel. -/
theorem parse_render_master : ∀ f : Nat,
    (∀ v rest, delimOk rest = true → (renderVal v).length < f →
      parseVal f (renderVal v ++ rest) = some (v, rest)) ∧
    (∀ (xs : List Json) (acc : List Json) rest, (renderArrTail xs).length < f →
      parseItems f acc (renderArrTail xs ++ ']' :: rest) =
        some (Json.arr (acc.reverse ++ xs), rest)) ∧
    (∀ (kvs : List (String × Json)) (acc : List (String × Json)) rest,
      (renderObjTail kvs).length < f →
      parseMembers f acc (renderObjTail kvs ++ '}' :: rest) =
        some (Json.obj (acc.reverse ++ kvs), rest)) := by
  intro f
  induction f using Nat.strong_induction_on with
  | _ f ih =>
    cases f with
    | zero =>
      exact ⟨fun v rest _ h => absurd h (by omega),
        fun xs acc rest h => absurd h (by omega),
        fun kvs acc rest h => absurd h (by omega)⟩
    | succ g =>
      have ihV := (ih g (by omega)).1
      have ihA := (ih g (by omega)).2.1
      have ihO := (ih g (by omega)).2.2
      refine ⟨?_, ?_, ?_⟩
      · intro v rest hdelim hlen
        cases v with
        | null =>
          rw [renderVal_null, parseVal.eq_def]
          simp [skipWs, isWs, parseLit]
        | bool b =>
          cases b with
          | true =>
            rw [renderVal_true, parseVal.eq_def]
            simp [skipWs, isWs, parseLit]
          | false =>
            rw [renderVal_false, parseVal.eq_def]
            simp [skipWs, isWs, parseLit]
        | num n =>
          have hpn := parseNumber_renderInt n rest hdelim
          rw [renderVal_num]
          by_cases hn : n < 0
          · rw [renderInt, if_pos hn] at hpn ⊢
            rw [List.cons_append] at hpn ⊢
            rw [parseVal.eq_def]
            have hsw : skipWs ('-' :: (natDigits n.natAbs ++ rest)) =
                '-' :: (natDigits n.natAbs ++ rest) := skipWs_cons _ (by decide)
            simp [hsw, hpn]
          · rw [renderInt, if_neg hn] at hpn ⊢
            obtain ⟨k, ds, hk, hds⟩ := natDigits_head n.natAbs
            obtain ⟨-, hdig, hws, -, -, hne1, hne2, hne3, hne4, hne5, hne6, -⟩ :=
              digitChar_facts k hk
            rw [hds] at hpn ⊢
            rw [List.cons_append] at hpn ⊢
            rw [parseVal.eq_def]
            have hsw : skipWs (digitChar k :: (ds ++ rest)) =
                digitChar k :: (ds ++ rest) := skipWs_cons _ hws
            simp [hsw, hpn, hne1, hne2, hne3, hne4, hne5, hne6, hdig]
        | str s =>
          rw [renderVal_str, parseVal.eq_def]
          simp only [List.cons_append, List.append_assoc, List.singleton_append]
          have hsw : skipWs ('"' :: (escapeList s.data ++ '"' :: rest)) =
              '"' :: (escapeList s.data ++ '"' :: rest) := skipWs_cons _ (by decide)
          simp [hsw, parseStringBody_escape]
        | arr xs =>
          cases xs with
          | nil =>
            rw [renderVal_arr_nil, parseVal.eq_def]
            simp [skipWs, isWs]
          | cons x xs =>
            rw [renderVal_arr_cons] at hlen ⊢
            have hlx : (renderVal x).length < g := by
              simp only [List.length_cons, List.length_append] at hlen
              omega
            have hlt : (renderArrTail xs).length < g := by
              simp only [List.length_cons, List.length_append] at hlen
              omega
            obtain ⟨c0, cs0, hx, hws0, hbrk0, -⟩ := renderVal_head x
            have hV := ihV x (renderArrTail xs ++ ']' :: rest) (delimOk_arrTail xs rest) hlx
            have hA := ihA xs [x] rest hlt
            rw [hx, List.cons_append] at hV
            rw [parseVal.eq_def]
            simp only [List.cons_append, List.append_assoc, List.singleton_append, hx]
            have hsw1 : skipWs ('[' :: (c0 :: (cs0 ++ (renderArrTail xs ++ ']' :: rest)))) =
                '[' :: (c0 :: (cs0 ++ (renderArrTail xs ++ ']' :: rest))) :=
              skipWs_cons _ (by decide)
            have hsw2 : skipWs (c0 :: (cs0 ++ (renderArrTail xs ++ ']' :: rest))) =
                c0 :: (cs0 ++ (renderArrTail xs ++ ']' :: rest)) := skipWs_cons _ hws0
            simp [hsw1, hsw2, hbrk0, hV, hA]
        | obj kvs =>
          cases kvs with
          | nil =>
            rw [renderVal_obj_nil, parseVal.eq_def]
            simp [skipWs, isWs]
          | cons kv kvs =>
            obtain ⟨k, v0⟩ := kv
            rw [renderVal_obj_cons, renderMember_def] at hlen ⊢
            have hlv : (renderVal v0).length < g := by
              simp only [List.length_cons, List.length_append] at hlen
              omega
            have hlt : (renderObjTail kvs).length < g := by
              simp only [List.length_cons, List.length_append] at hlen
              omega
            have hV := ihV v0 (renderObjTail kvs ++ '}' :: rest)
              (delimOk_objTail kvs rest) hlv
            have hO := ihO kvs [(k, v0)] rest hlt
            have hK := parseKeyColon_render k
              (renderVal v0 ++ (renderObjTail kvs ++ '}' :: rest))
            rw [parseVal.eq_def]
            simp only [List.cons_append, List.append_assoc, List.singleton_append]
            have hsw1 : skipWs ('{' :: ('"' ::
                (escapeList k.data ++ '"' :: ':' ::
                  (renderVal v0 ++ (renderObjTail kvs ++ '}' :: rest))))) =
                '{' :: ('"' :: (escapeList k.data ++ '"' :: ':' ::
                  (renderVal v0 ++ (renderObjTail kvs ++ '}' :: rest)))) :=
              skipWs_cons _ (by decide)
            have hsw2 : skipWs ('"' :: (escapeList k.data ++ '"' :: ':' ::
                (renderVal v0 ++ (renderObjTail kvs ++ '}' :: rest)))) =
                '"' :: (escapeList k.data ++ '"' :: ':' ::
                  (renderVal v0 ++ (renderObjTail kvs ++ '}' :: rest))) :=
              skipWs_cons _ (by decide)
            simp [hsw1, hsw2, hK, hV, hO]
      · intro xs acc rest hlen
        cases xs with
        | nil =>
          rw [renderArrTail_nil, List.nil_append, parseItems.eq_def]
          have hsw : skipWs (']' :: rest) = ']' :: rest := skipWs_cons _ (by decide)
          simp [hsw]
        | cons y ys =>
          rw [renderArrTail_cons] at hlen ⊢
          have hly : (renderVal y).length < g := by
            simp only [List.length_cons, List.length_append] at hlen
            omega
          have hlt : (renderArrTail ys).length < g := by
            simp only [List.length_cons, List.length_append] at hlen
            omega
          have hV := ihV y (renderArrTail ys ++ ']' :: rest) (delimOk_arrTail ys rest) hly
          have hA := ihA ys (y :: acc) rest hlt
          rw [parseItems.eq_def]
          simp only [List.cons_append, List.append_assoc]
          have hsw : skipWs (',' :: (renderVal y ++ (renderArrTail ys ++ ']' :: rest))) =
              ',' :: (renderVal y ++ (renderArrTail ys ++ ']' :: rest)) :=
            skipWs_cons _ (by decide)
          simp [hsw, hV, hA]
      · intro kvs acc rest hlen
        cases kvs with
        | nil =>
          rw [renderObjTail_nil, List.nil_append, parseMembers.eq_def]
          have hsw : skipWs ('}' :: rest) = '}' :: rest := skipWs_cons _ (by decide)
          simp [hsw]
        | cons kv kvs =>
          obtain ⟨k, v0⟩ := kv
          rw [renderObjTail_cons, renderMember_def] at hlen ⊢
          have hlv : (renderVal v0).length < g := by
            simp only [List.length_cons, List.length_append] at hlen
            omega
          have hlt : (renderObjTail kvs).length < g := by
            simp only [List.length_cons, List.length_append] at hlen
            omega
          have hV := ihV v0 (renderObjTail kvs ++ '}' :: rest)
            (delimOk_objTail kvs rest) hlv
          have hO := ihO kvs ((k, v0) :: acc) rest hlt
          have hK := parseKeyColon_render k
            (renderVal v0 ++ (renderObjTail kvs ++ '}' :: rest))
          rw [parseMembers.eq_def]
          simp only [List.cons_append, List.append_assoc]
          have hsw : skipWs (',' :: ('"' :: (escapeList k.data ++ '"' :: ':' ::
              (renderVal v0 ++ (renderObjTail kvs ++ '}' :: rest))))) =
              ',' :: ('"' :: (escapeList k.data ++ '"' :: ':' ::
              (renderVal v0 ++ (renderObjTail kvs ++ '}' :: rest)))) :=
            skipWs_cons _ (by decide)
          simp [hsw, hK, hV, hO]

/-- Serialize-then-parse round-trip for every JSON value. -/
theorem parseJsonStr_renderJsonStr (v : Json) :
    parseJsonStr (renderJsonStr v) = some v := by
  have h := (parse_render_master ((renderVal v).length + 1)).1 v [] rfl (by omega)
  rw [List.append_nil] at h
  show parseJsonStr (String.mk (renderVal v)) = some v
  unfold parseJsonStr
  show (match parseVal ((renderVal v).length + 1) (renderVal v) with
    | some (v, rest) => if skipWs rest = [] then some v else none
    | none => none) = some v
  rw [h]
  simp [skipWs]

/-! ## Event-trace model of the program's side effects

The program's effects are recorded as an explicit trace. The HTTP
transport is an oracle mapping the request index to an outcome, and the
chat-completion service is an oracle mapping the sent messages to a
result. -/

/-- One observable side effect of a run. -/
inductive Event where
  | httpRequest (url : String) (userAgent : Option String)
  | sleepFor (secs : Nat)
  | stdoutLine (s : String)
  | stderrLine (s : String)
  | fileWrite (name : String) (contents : String)
  | chatRequest (messages : List (String × String))
deriving DecidableEq, Repr

/-- Model of `reqwest::Error` as the source constructs and carries it:
a status code together with a message string. -/
structure ReqwestError where
  status : Nat
  msg : String
deriving DecidableEq, Repr

/-- The source's `OsintError` enum (`thiserror`-derived). -/
inductive OsintError where
  | httpRequest (e : ReqwestError)
  | invalidType
  | missingApiKey (k : String)
deriving DecidableEq, Repr

/-- `Display` of `OsintError`, from its `thiserror` format strings. -/
def OsintError.display : OsintError → String
  | .httpRequest e => "HTTP request failed: " ++ e.msg
  | .invalidType => "Invalid OSINT type"
  | .missingApiKey k => "Missing API Key: " ++ k

/-- Outcome of one `request.send().await`: either a response with a
status code and body text, or a transport-level error. -/
inductive SendOutcome where
  | response (status : Nat) (body : String)
  | failure (e : ReqwestError)

/-- `StatusCode::is_success`: a 2xx status. -/
def isSuccessStatus (s : Nat) : Bool := 200 ≤ s && s < 300

/-- `const RETRY_ATTEMPTS: u8 = 3` -/
def RETRY_ATTEMPTS : Nat := 3

/-- `const RETRY_DELAY: Duration = Duration::from_secs(5)` (in seconds) -/
def RETRY_DELAY : Nat := 5

/-- The body of `fetch_with_retries`' `for attempt in 0..RETRY_ATTEMPTS`
loop: `i` is the index of the next request, `remaining` the attempts
left. A 2xx response returns its body; 429 logs, sleeps the fixed
delay and retries; any other status or a transport error returns
immediately. When the attempts run out the max-retries error is
returned. (Reading the response body is modelled as always succeeding.) -/
def fetchFrom (url : String) (user_agent : Option String)
    (transport : Nat → SendOutcome) : Nat → Nat → Except OsintError String × List Event
  | _, 0 => (.error (.httpRequest ⟨400, "Max retries exceeded"⟩), [])
  | i, remaining + 1 =>
    match transport i with
    | .response s body =>
      if isSuccessStatus s then (.ok body, [.httpRequest url user_agent])
      else if s = 429 then
        let r := fetchFrom url user_agent transport (i + 1) remaining
        (r.1, .httpRequest url user_agent ::
          .stderrLine "Rate limited! Retrying in 5 seconds..." ::
          .sleepFor RETRY_DELAY :: r.2)
      else (.error (.httpRequest ⟨s, "API Error"⟩), [.httpRequest url user_agent])
    | .failure e => (.error (.httpRequest e), [.httpRequest url user_agent])

/-- `fetch_with_retries(url, user_agent)` under a given transport. -/
def fetch_with_retries (url : String) (user_agent : Option String)
    (transport : Nat → SendOutcome) : Except OsintError String × List Event :=
  fetchFrom url user_agent transport 0 RETRY_ATTEMPTS

/-- Shared adapter postlude: parse the fetched body as JSON, turning a
parse failure into the synthesized bad-request error the source builds. -/
def parseAdapterResponse (r : Except OsintError String × List Event) :
    Except OsintError Json × List Event :=
  match r.1 with
  | .error e => (.error e, r.2)
  | .ok body =>
    match parseJsonStr body with
    | some v => (.ok v, r.2)
    | none => (.error (.httpRequest ⟨400, "Failed to parse JSON"⟩), r.2)

/-- `fetch_whois(domain)` under a given transport. -/
def fetch_whois (domain : String) (transport : Nat → SendOutcome) :
    Except OsintError Json × List Event :=
  let url := "https://api.whois.vu/?q=" ++ domain
  parseAdapterResponse (fetch_with_retries url none transport)

/-- `fetch_shodan(ip)` under a given environment and transport. The
API key is read from the environment before any network call. -/
def fetch_shodan (ip : String) (env : String → Option String)
    (transport : Nat → SendOutcome) : Except OsintError Json × List Event :=
  match env "SHODAN_API_KEY" with
  | none => (.error (.missingApiKey "SHODAN_API_KEY"), [])
  | some shodan_key =>
    let url := "https://api.shodan.io/shodan/host/" ++ ip ++ "?key=" ++ shodan_key
    parseAdapterResponse (fetch_with_retries url none transport)

/-- `fetch_hibp(email)` under a given transport. -/
def fetch_hibp (email : String) (transport : Nat → SendOutcome) :
    Except OsintError Json × List Event :=
  let url := "https://haveibeenpwned.com/api/v3/breachedaccount/" ++ email
  parseAdapterResponse (fetch_with_retries url (some "Rust-OSINT-Tool/1.0") transport)

/-- `save_report(target, data)`: create the report file and print its
name. File creation is modelled as always succeeding, so the result is
the emitted events. -/
def save_report (target : String) (data : Json) : List Event :=
  let filename := target ++ "_osint_report.json"
  [.fileWrite filename (renderJsonStr data),
   .stdoutLine ("Report saved to: " ++ filename)]

/-- A run either finishes with a value or aborts in a panic
(`unwrap` on an `Err`). -/
inductive RunOutcome (α : Type) where
  | ok (a : α)
  | panicked (msg : String)
deriving DecidableEq, Repr

/-- `analyze_with_chatgpt(api_key, data)` under a chat oracle. The
source calls `client.chat(messages).await.unwrap()`, so an error from
the chat service panics instead of returning `Err`. -/
def analyze_with_chatgpt (api_key : String) (data : Json)
    (chat : String → List (String × String) → Except String String) :
    RunOutcome (Except OsintError String) × List Event :=
  let messages := [("system", "You are a cybersecurity expert."),
    ("user", "Analyze this OSINT data: " ++ renderJsonStr data)]
  match chat api_key messages with
  | .ok response => (.ok (.ok response), [.chatRequest messages])
  | .error e =>
    (.panicked ("called Result::unwrap() on an Err value: " ++ e), [.chatRequest messages])

/-- The inputs of one run: the two positional CLI arguments, the
process environment, and the two remote-service oracles. -/
structure MainInput where
  target : String
  recon_type : String
  env : String → Option String
  transport : Nat → SendOutcome
  chat : String → List (String × String) → Except String String

/-- The `match recon_type.as_str()` dispatch in `main`. -/
def dispatchLookup (target recon_type : String) (env : String → Option String)
    (transport : Nat → SendOutcome) : Except OsintError Json × List Event :=
  match recon_type with
  | "whois" => fetch_whois target transport
  | "shodan" => fetch_shodan target env transport
  | "hibp" => fetch_hibp target transport
  | _ => (.error .invalidType, [])

/-- The whole `main` function: read `OPENAI_API_KEY` (aborting with an
`Err` return when absent), dispatch the lookup, and on success print
the raw data, save the report and run the summarizer; a lookup error is
only printed to standard error. `main` returning `Err` makes the
process exit nonzero; a panic aborts it. -/
def mainRun (inp : MainInput) : RunOutcome (Except OsintError Unit) × List Event :=
  match inp.env "OPENAI_API_KEY" with
  | none => (.ok (.error (.missingApiKey "OPENAI_API_KEY")), [])
  | some openai_api_key =>
    let d := dispatchLookup inp.target inp.recon_type inp.env inp.transport
    match d.1 with
    | .ok data =>
      let evs2 := Event.stdoutLine ("Raw OSINT Data: \n" ++ renderJsonStr data) ::
        save_report inp.target data
      let a := analyze_with_chatgpt openai_api_key data inp.chat
      match a.1 with
      | .ok (.ok analysis) =>
        (.ok (.ok ()), d.2 ++ evs2 ++ a.2 ++
          [.stdoutLine ("ChatGPT Analysis: \n" ++ analysis)])
      | .ok (.error err) =>
        (.ok (.ok ()), d.2 ++ evs2 ++ a.2 ++
          [.stderrLine ("Error analyzing data with ChatGPT: " ++ err.display)])
      | .panicked m => (.panicked m, d.2 ++ evs2 ++ a.2)
    | .error err =>
      (.ok (.ok ()), d.2 ++ [.stderrLine ("Error fetching OSINT data: " ++ err.display)])

/-- Process exit code of a finished run: `main` returning `Ok` exits 0,
returning `Err` exits 1, and a panic aborts with 101. -/
def exitCode : RunOutcome (Except OsintError Unit) → Nat
  | .ok (.ok _) => 0
  | .ok (.error _) => 1
  | .panicked _ => 101

/-! ## Trace observations -/

/-- Number of HTTP requests in a trace. -/
def requestCount : List Event → Nat
  | [] => 0
  | .httpRequest _ _ :: evs => requestCount evs + 1
  | _ :: evs => requestCount evs

/-- Number of sleeps in a trace. -/
def sleepCount : List Event → Nat
  | [] => 0
  | .sleepFor _ :: evs => sleepCount evs + 1
  | _ :: evs => sleepCount evs

/-- Number of chat-completion calls in a trace. -/
def chatCount : List Event → Nat
  | [] => 0
  | .chatRequest _ :: evs => chatCount evs + 1
  | _ :: evs => chatCount evs

/-- The files written during a trace, in order. -/
def writtenFiles : List Event → List (String × String)
  | [] => []
  | .fileWrite n c :: evs => (n, c) :: writtenFiles evs
  | _ :: evs => writtenFiles evs

/-- Total seconds slept from the current position up to the next HTTP
request (or the end of the trace). -/
def sleepUntilNextReq : List Event → Nat
  | [] => 0
  | .httpRequest _ _ :: _ => 0
  | .sleepFor d :: evs => d + sleepUntilNextReq evs
  | _ :: evs => sleepUntilNextReq evs

/-- Total seconds slept between the `n`-th HTTP request (0-based) and
the following HTTP request (or the end of the trace). -/
def sleepGap : List Event → Nat → Nat
  | [], _ => 0
  | .httpRequest _ _ :: evs, 0 => sleepUntilNextReq evs
  | .httpRequest _ _ :: evs, n + 1 => sleepGap evs n
  | _ :: evs, n => sleepGap evs n

theorem writtenFiles_append (a b : List Event) :
    writtenFiles (a ++ b) = writtenFiles a ++ writtenFiles b := by
  induction a with
  | nil => rfl
  | cons e a ih => cases e <;> simp [writtenFiles, ih]

theorem chatCount_append (a b : List Event) :
    chatCount (a ++ b) = chatCount a + chatCount b := by
  induction a with
  | nil => simp [chatCount]
  | cons e a ih => cases e <;> simp [chatCount, ih] <;> try omega

/-- The fetch loop only emits requests, sleeps and log lines: it never
writes a file and never calls the chat service. -/
theorem fetchFrom_no_files_no_chat (url : String) (ua : Option String)
    (tr : Nat → SendOutcome) : ∀ r i,
    writtenFiles (fetchFrom url ua tr i r).2 = [] ∧
    chatCount (fetchFrom url ua tr i r).2 = 0 := by
  intro r
  induction r with
  | zero => intro i; exact ⟨rfl, rfl⟩
  | succ r ih =>
    intro i
    rw [fetchFrom]
    match htr : tr i with
    | .response s body =>
      by_cases hs : isSuccessStatus s
      · simp [hs, writtenFiles, chatCount]
      · by_cases h429 : s = 429
        · have := ih (i + 1)
          simp [hs, h429, writtenFiles, chatCount, this.1, this.2]
        · simp [hs, h429, writtenFiles, chatCount]
    | .failure e => simp [writtenFiles, chatCount]

/-- Whatever the lookup kind, the dispatch stage writes no file and
performs no chat call. -/
theorem dispatchLookup_no_files_no_chat (target ty : String)
    (env : String → Option String) (tr : Nat → SendOutcome) :
    writtenFiles (dispatchLookup target ty env tr).2 = [] ∧
    chatCount (dispatchLookup target ty env tr).2 = 0 := by
  have hfetch : ∀ url ua, writtenFiles (fetch_with_retries url ua tr).2 = [] ∧
      chatCount (fetch_with_retries url ua tr).2 = 0 := by
    intro url ua
    exact fetchFrom_no_files_no_chat url ua tr RETRY_ATTEMPTS 0
  have hpar : ∀ r : Except OsintError String × List Event,
      writtenFiles r.2 = [] ∧ chatCount r.2 = 0 →
      writtenFiles (parseAdapterResponse r).2 = [] ∧
      chatCount (parseAdapterResponse r).2 = 0 := by
    intro r h
    unfold parseAdapterResponse
    split
    · exact h
    · split
      · exact h
      · exact h
  rw [dispatchLookup.eq_def]
  split
  · exact hpar _ (hfetch _ _)
  · rw [fetch_shodan.eq_def]
    split
    · exact ⟨rfl, rfl⟩
    · exact hpar _ (hfetch _ _)
  · exact hpar _ (hfetch _ _)
  · exact ⟨rfl, rfl⟩

/-! ## Claim C3: two rate-limit responses then success -/

/-- C3. If the transport answers the first two requests with HTTP 429
and the third with a 2xx response, `fetch_with_retries` returns the
2xx body, issues exactly 3 requests, and sleeps at least the 5-second
fixed delay between requests 1 and 2 and between requests 2 and 3. -/
theorem c3_two_rate_limits_then_success (tr : Nat → SendOutcome) (url : String)
    (ua : Option String) (b0 b1 body : String) (s : Nat)
    (h0 : tr 0 = .response 429 b0) (h1 : tr 1 = .response 429 b1)
    (h2 : tr 2 = .response s body) (hs : isSuccessStatus s = true) :
    (fetch_with_retries url ua tr).1 = .ok body ∧
    requestCount (fetch_with_retries url ua tr).2 = 3 ∧
    5 ≤ sleepGap (fetch_with_retries url ua tr).2 0 ∧
    5 ≤ sleepGap (fetch_with_retries url ua tr).2 1 := by
  have is429 : isSuccessStatus 429 = false := rfl
  have e : fetch_with_retries url ua tr = (.ok body,
      [.httpRequest url ua, .stderrLine "Rate limited! Retrying in 5 seconds...",
       .sleepFor 5, .httpRequest url ua,
       .stderrLine "Rate limited! Retrying in 5 seconds...", .sleepFor 5,
       .httpRequest url ua]) := by
    unfold fetch_with_retries RETRY_ATTEMPTS
    rw [fetchFrom, h0]
    simp only [is429, if_false, Bool.false_eq_true, reduceIte, RETRY_DELAY]
    rw [fetchFrom, h1]
    simp only [is429, if_false, Bool.false_eq_true, reduceIte, RETRY_DELAY]
    rw [fetchFrom, h2]
    simp [hs]
  rw [e]
  refine ⟨rfl, rfl, ?_, ?_⟩ <;> simp [sleepGap, sleepUntilNextReq]

/-! ## Claim C4: rate-limited on every attempt -/

/-- C4. If the transport answers every request with HTTP 429,
`fetch_with_retries` issues exactly 3 requests and then fails with the
max-retries-exceeded error. -/
theorem c4_rate_limited_exhausts_attempts (tr : Nat → SendOutcome) (url : String)
    (ua : Option String) (b0 b1 b2 : String)
    (h0 : tr 0 = .response 429 b0) (h1 : tr 1 = .response 429 b1)
    (h2 : tr 2 = .response 429 b2) :
    (fetch_with_retries url ua tr).1 =
      .error (.httpRequest ⟨400, "Max retries exceeded"⟩) ∧
    requestCount (fetch_with_retries url ua tr).2 = 3 := by
  have is429 : isSuccessStatus 429 = false := rfl
  have e : fetch_with_retries url ua tr =
      (.error (.httpRequest ⟨400, "Max retries exceeded"⟩),
      [.httpRequest url ua, .stderrLine "Rate limited! Retrying in 5 seconds...",
       .sleepFor 5, .httpRequest url ua,
       .stderrLine "Rate limited! Retrying in 5 seconds...", .sleepFor 5,
       .httpRequest url ua, .stderrLine "Rate limited! Retrying in 5 seconds...",
       .sleepFor 5]) := by
    unfold fetch_with_retries RETRY_ATTEMPTS
    rw [fetchFrom, h0]
    simp only [is429, if_false, Bool.false_eq_true, reduceIte, RETRY_DELAY]
    rw [fetchFrom, h1]
    simp only [is429, if_false, Bool.false_eq_true, reduceIte, RETRY_DELAY]
    rw [fetchFrom, h2]
    simp only [is429, if_false, Bool.false_eq_true, reduceIte, RETRY_DELAY]
    rw [fetchFrom]
  rw [e]
  exact ⟨rfl, rfl⟩

/-! ## Claim C10: the delay is slept after every 429, including the last -/

/-- C10. In a budget-exhausting run of three 429 responses, the fixed
5-second delay is slept after each 429 before the attempt budget is
re-checked — including after the third and final 429 — so the trace
holds exactly 3 requests and exactly 3 sleeps, with the full delay
spent after the last request even though no further request follows. -/
theorem c10_sleep_after_final_429 (tr : Nat → SendOutcome) (url : String)
    (ua : Option String) (b0 b1 b2 : String)
    (h0 : tr 0 = .response 429 b0) (h1 : tr 1 = .response 429 b1)
    (h2 : tr 2 = .response 429 b2) :
    requestCount (fetch_with_retries url ua tr).2 = 3 ∧
    sleepCount (fetch_with_retries url ua tr).2 = 3 ∧
    sleepGap (fetch_with_retries url ua tr).2 2 = 5 := by
  have is429 : isSuccessStatus 429 = false := rfl
  have e : fetch_with_retries url ua tr =
      (.error (.httpRequest ⟨400, "Max retries exceeded"⟩),
      [.httpRequest url ua, .stderrLine "Rate limited! Retrying in 5 seconds...",
       .sleepFor 5, .httpRequest url ua,
       .stderrLine "Rate limited! Retrying in 5 seconds...", .sleepFor 5,
       .httpRequest url ua, .stderrLine "Rate limited! Retrying in 5 seconds...",
       .sleepFor 5]) := by
    unfold fetch_with_retries RETRY_ATTEMPTS
    rw [fetchFrom, h0]
    simp only [is429, if_false, Bool.false_eq_true, reduceIte, RETRY_DELAY]
    rw [fetchFrom, h1]
    simp only [is429, if_false, Bool.false_eq_true, reduceIte, RETRY_DELAY]
    rw [fetchFrom, h2]
    simp only [is429, if_false, Bool.false_eq_true, reduceIte, RETRY_DELAY]
    rw [fetchFrom]
  rw [e]
  exact ⟨rfl, rfl, rfl⟩

/-! ## Claim C5: anything other than 429 fails immediately, no retry -/

/-- C5. A first response with a non-2xx, non-429 status makes
`fetch_with_retries` fail immediately with a request error carrying
that status, and a transport-level failure on the first attempt makes
it fail immediately with an error carrying the transport cause; in
both cases exactly one request is issued. -/
theorem c5_non_429_failures_not_retried :
    (∀ (tr : Nat → SendOutcome) (url : String) (ua : Option String)
      (s : Nat) (body : String), tr 0 = .response s body →
      isSuccessStatus s = false → s ≠ 429 →
      fetch_with_retries url ua tr =
        (.error (.httpRequest ⟨s, "API Error"⟩), [.httpRequest url ua])) ∧
    (∀ (tr : Nat → SendOutcome) (url : String) (ua : Option String)
      (e : ReqwestError), tr 0 = .failure e →
      fetch_with_retries url ua tr =
        (.error (.httpRequest e), [.httpRequest url ua])) := by
  constructor
  · intro tr url ua s body h0 hs h429
    unfold fetch_with_retries RETRY_ATTEMPTS
    rw [fetchFrom, h0]
    simp [hs, h429]
  · intro tr url ua e h0
    unfold fetch_with_retries RETRY_ATTEMPTS
    rw [fetchFrom, h0]

/-! ## Claim C6: device-intelligence lookup with no API key -/

/-- C6. When `SHODAN_API_KEY` is absent from the environment,
`fetch_shodan` fails with the missing-credential error and its trace
holds zero HTTP requests: no network call is attempted. -/
theorem c6_shodan_missing_key_no_network (ip : String)
    (env : String → Option String) (tr : Nat → SendOutcome)
    (h : env "SHODAN_API_KEY" = none) :
    fetch_shodan ip env tr = (.error (.missingApiKey "SHODAN_API_KEY"), []) ∧
    requestCount (fetch_shodan ip env tr).2 = 0 := by
  rw [fetch_shodan.eq_def, h]
  exact ⟨rfl, rfl⟩

/-! ## Claim C8: report writing round-trip -/

/-- C8. `save_report(t, v)` writes exactly one file, named
`t ++ "_osint_report.json"`, and its contents — the compact
serialization of `v` — parse back to a JSON value equal to `v`. -/
theorem c8_save_report_round_trip (t : String) (v : Json) :
    writtenFiles (save_report t v) = [(t ++ "_osint_report.json", renderJsonStr v)] ∧
    parseJsonStr (renderJsonStr v) = some v :=
  ⟨rfl, parseJsonStr_renderJsonStr v⟩

/-! ## Claim C2: parse failures versus network failures -/

/-- C2 counterexample. A transport-level failure carrying status 400
and message `"Failed to parse JSON"` and a malformed (non-JSON) 200
response lead `fetch_whois` to the *same* `OsintError` value, so the
two error causes do not map to distinct, distinguishable error values:
both are folded into the one `HttpRequest` variant. -/
theorem c2_parse_error_equals_network_error :
    (fetch_whois "example.com"
      (fun _ => SendOutcome.failure ⟨400, "Failed to parse JSON"⟩)).1 =
      .error (.httpRequest ⟨400, "Failed to parse JSON"⟩) ∧
    (fetch_whois "example.com"
      (fun _ => SendOutcome.response 200 "not json")).1 =
      .error (.httpRequest ⟨400, "Failed to parse JSON"⟩) ∧
    (fetch_whois "example.com"
      (fun _ => SendOutcome.failure ⟨400, "Failed to parse JSON"⟩)).1 =
    (fetch_whois "example.com"
      (fun _ => SendOutcome.response 200 "not json")).1 :=
  ⟨rfl, rfl, rfl⟩

/-- C2 amended. Every adapter reports a body that is not valid JSON as
`OsintError::HttpRequest` carrying the synthesized error with status
400 and message `"Failed to parse JSON"` — the same variant used for
network failures. The message string distinguishes it from the errors
the fetcher itself synthesizes for non-2xx statuses (`"API Error"`)
and for retry exhaustion (`"Max retries exceeded"`), but not from an
arbitrary transport error. -/
theorem c2_amended_parse_error_same_variant (domain ip email key : String)
    (env : String → Option String) (tr : Nat → SendOutcome) (body : String)
    (henv : env "SHODAN_API_KEY" = some key)
    (h0 : tr 0 = .response 200 body) (hp : parseJsonStr body = none) :
    (fetch_whois domain tr).1 = .error (.httpRequest ⟨400, "Failed to parse JSON"⟩) ∧
    (fetch_shodan ip env tr).1 = .error (.httpRequest ⟨400, "Failed to parse JSON"⟩) ∧
    (fetch_hibp email tr).1 = .error (.httpRequest ⟨400, "Failed to parse JSON"⟩) ∧
    (∀ s : Nat, (⟨400, "Failed to parse JSON"⟩ : ReqwestError) ≠ ⟨s, "API Error"⟩) ∧
    (⟨400, "Failed to parse JSON"⟩ : ReqwestError) ≠ ⟨400, "Max retries exceeded"⟩ := by
  have hfetch : ∀ url ua, fetch_with_retries url ua tr =
      (.ok body, [.httpRequest url ua]) := by
    intro url ua
    unfold fetch_with_retries RETRY_ATTEMPTS
    rw [fetchFrom, h0]
    simp [isSuccessStatus]
  refine ⟨?_, ?_, ?_, ?_, ?_⟩
  · unfold fetch_whois
    simp only [hfetch]
    unfold parseAdapterResponse
    simp [hp]
  · unfold fetch_shodan
    rw [henv]
    simp only [hfetch]
    unfold parseAdapterResponse
    simp [hp]
  · unfold fetch_hibp
    simp only [hfetch]
    unfold parseAdapterResponse
    simp [hp]
  · intro s heq
    have hmsg : ("Failed to parse JSON" : String) = "API Error" :=
      congrArg ReqwestError.msg heq
    exact absurd hmsg (by decide)
  · intro heq
    have hmsg : ("Failed to parse JSON" : String) = "Max retries exceeded" :=
      congrArg ReqwestError.msg heq
    exact absurd hmsg (by decide)

/-! ## Claim C7: dispatch failure writes nothing and skips the summarizer -/

/-- C7. When the dispatch stage fails (invalid lookup kind, missing
credential, or fetch/parse error), `main` prints the error to standard
error, writes no report file, and never invokes the summarizer. -/
theorem c7_dispatch_failure_frame (inp : MainInput) (key : String)
    (e : OsintError) (evs : List Event)
    (hkey : inp.env "OPENAI_API_KEY" = some key)
    (hd : dispatchLookup inp.target inp.recon_type inp.env inp.transport =
      (.error e, evs)) :
    (mainRun inp).1 = .ok (.ok ()) ∧
    writtenFiles (mainRun inp).2 = [] ∧
    chatCount (mainRun inp).2 = 0 ∧
    Event.stderrLine ("Error fetching OSINT data: " ++ e.display) ∈ (mainRun inp).2 := by
  have hno := dispatchLookup_no_files_no_chat inp.target inp.recon_type inp.env inp.transport
  rw [hd] at hno
  have hmain : mainRun inp = (.ok (.ok ()),
      evs ++ [.stderrLine ("Error fetching OSINT data: " ++ e.display)]) := by
    unfold mainRun
    rw [hkey]
    simp only [hd]
  rw [hmain]
  refine ⟨rfl, ?_, ?_, ?_⟩
  · rw [writtenFiles_append]
    simp only at hno
    rw [hno.1]
    rfl
  · rw [chatCount_append]
    simp only at hno
    rw [hno.2]
    rfl
  · simp

/-! ## Claim C9: a failed lookup still exits 0 -/

/-- C9. In every run whose lookup stage fails, `main` returns `Ok(())`
— the process exits with status 0 — and the error is only printed to
standard error. -/
theorem c9_lookup_failure_exits_zero (inp : MainInput) (key : String)
    (e : OsintError) (evs : List Event)
    (hkey : inp.env "OPENAI_API_KEY" = some key)
    (hd : dispatchLookup inp.target inp.recon_type inp.env inp.transport =
      (.error e, evs)) :
    exitCode (mainRun inp).1 = 0 ∧
    Event.stderrLine ("Error fetching OSINT data: " ++ e.display) ∈ (mainRun inp).2 := by
  have hmain : mainRun inp = (.ok (.ok ()),
      evs ++ [.stderrLine ("Error fetching OSINT data: " ++ e.display)]) := by
    unfold mainRun
    rw [hkey]
    simp only [hd]
  rw [hmain]
  exact ⟨rfl, by simp⟩

/-! ## Claim C1: a summarizer failure after a successful lookup -/

/-- C1 (divergence witness). When the lookup succeeds and the chat
service then reports an error, the report file has already been
written, but the run does NOT complete successfully: the `.unwrap()`
in `analyze_with_chatgpt` panics, the process aborts with a nonzero
status, and the orchestrator's warning branch is dead code. -/
theorem c1_summarizer_failure_panics (inp : MainInput) (key : String)
    (data : Json) (evs : List Event) (emsg : String)
    (hkey : inp.env "OPENAI_API_KEY" = some key)
    (hd : dispatchLookup inp.target inp.recon_type inp.env inp.transport =
      (.ok data, evs))
    (hchat : inp.chat key [("system", "You are a cybersecurity expert."),
      ("user", "Analyze this OSINT data: " ++ renderJsonStr data)] = .error emsg) :
    (mainRun inp).1 = .panicked ("called Result::unwrap() on an Err value: " ++ emsg) ∧
    exitCode (mainRun inp).1 = 101 ∧
    (inp.target ++ "_osint_report.json", renderJsonStr data) ∈
      writtenFiles (mainRun inp).2 := by
  have han : analyze_with_chatgpt key data inp.chat =
      (.panicked ("called Result::unwrap() on an Err value: " ++ emsg),
       [.chatRequest [("system", "You are a cybersecurity expert."),
        ("user", "Analyze this OSINT data: " ++ renderJsonStr data)]]) := by
    unfold analyze_with_chatgpt
    simp only [hchat]
  have hmain : mainRun inp =
      (.panicked ("called Result::unwrap() on an Err value: " ++ emsg),
       evs ++ (Event.stdoutLine ("Raw OSINT Data: \n" ++ renderJsonStr data) ::
         save_report inp.target data) ++
       [.chatRequest [("system", "You are a cybersecurity expert."),
        ("user", "Analyze this OSINT data: " ++ renderJsonStr data)]]) := by
    unfold mainRun
    rw [hkey]
    simp only [hd, han]
  rw [hmain]
  refine ⟨rfl, rfl, ?_⟩
  rw [writtenFiles_append, writtenFiles_append]
  simp [writtenFiles, save_report]

/-! ## Concrete inputs and witnesses -/

/-- Transport answering 429 twice, then 200 with body `"done"`. -/
def trTwo429 : Nat → SendOutcome := fun n =>
  if n < 2 then .response 429 "" else .response 200 "done"

/-- Transport answering 429 to every request. -/
def trAll429 : Nat → SendOutcome := fun _ => .response 429 ""

/-- Transport answering 500 to every request. -/
def trAll500 : Nat → SendOutcome := fun _ => .response 500 "oops"

/-- Transport failing at the connection level on every request. -/
def trConnFail : Nat → SendOutcome := fun _ => .failure ⟨0, "connection error"⟩

/-- Transport answering 200 with the body `"{}"`. -/
def trEmptyObj : Nat → SendOutcome := fun _ => .response 200 "{}"

/-- Transport answering 200 with a body that is not valid JSON. -/
def trNotJson : Nat → SendOutcome := fun _ => .response 200 "oops"

/-- Environment holding only `OPENAI_API_KEY`. -/
def envOpenAIOnly : String → Option String := fun k =>
  if k = "OPENAI_API_KEY" then some "sk-test" else none

/-- Environment holding only `SHODAN_API_KEY`. -/
def envShodanOnly : String → Option String := fun k =>
  if k = "SHODAN_API_KEY" then some "shkey" else none

/-- A `shodan` run with `OPENAI_API_KEY` set but no `SHODAN_API_KEY`. -/
def inpShodanNoKey : MainInput :=
  { target := "1.2.3.4", recon_type := "shodan", env := envOpenAIOnly,
    transport := trEmptyObj, chat := fun _ _ => .ok "fine" }

/-- A `whois` run where the lookup succeeds and the chat service fails. -/
def inpChatFails : MainInput :=
  { target := "example.com", recon_type := "whois", env := envOpenAIOnly,
    transport := trEmptyObj, chat := fun _ _ => .error "boom" }

theorem c3_witness :
    (fetch_with_retries "u" none trTwo429).1 = .ok "done" ∧
    requestCount (fetch_with_retries "u" none trTwo429).2 = 3 ∧
    5 ≤ sleepGap (fetch_with_retries "u" none trTwo429).2 0 ∧
    5 ≤ sleepGap (fetch_with_retries "u" none trTwo429).2 1 :=
  c3_two_rate_limits_then_success trTwo429 "u" none "" "" "done" 200 rfl rfl rfl rfl

theorem c4_witness :
    (fetch_with_retries "u" none trAll429).1 =
      .error (.httpRequest ⟨400, "Max retries exceeded"⟩) ∧
    requestCount (fetch_with_retries "u" none trAll429).2 = 3 :=
  c4_rate_limited_exhausts_attempts trAll429 "u" none "" "" "" rfl rfl rfl

theorem c10_witness :
    requestCount (fetch_with_retries "u" none trAll429).2 = 3 ∧
    sleepCount (fetch_with_retries "u" none trAll429).2 = 3 ∧
    sleepGap (fetch_with_retries "u" none trAll429).2 2 = 5 :=
  c10_sleep_after_final_429 trAll429 "u" none "" "" "" rfl rfl rfl

theorem c5_witness :
    fetch_with_retries "u" none trAll500 =
      (.error (.httpRequest ⟨500, "API Error"⟩), [.httpRequest "u" none]) ∧
    fetch_with_retries "u" none trConnFail =
      (.error (.httpRequest ⟨0, "connection error"⟩), [.httpRequest "u" none]) :=
  ⟨c5_non_429_failures_not_retried.1 trAll500 "u" none 500 "oops" rfl rfl (by decide),
   c5_non_429_failures_not_retried.2 trConnFail "u" none ⟨0, "connection error"⟩ rfl⟩

theorem c6_witness :
    fetch_shodan "1.2.3.4" (fun _ => none) trEmptyObj =
      (.error (.missingApiKey "SHODAN_API_KEY"), []) ∧
    requestCount (fetch_shodan "1.2.3.4" (fun _ => none) trEmptyObj).2 = 0 :=
  c6_shodan_missing_key_no_network "1.2.3.4" (fun _ => none) trEmptyObj rfl

theorem c2_amended_witness :
    (fetch_whois "example.com" trNotJson).1 =
      .error (.httpRequest ⟨400, "Failed to parse JSON"⟩) ∧
    (fetch_shodan "1.2.3.4" envShodanOnly trNotJson).1 =
      .error (.httpRequest ⟨400, "Failed to parse JSON"⟩) ∧
    (fetch_hibp "user@example.com" trNotJson).1 =
      .error (.httpRequest ⟨400, "Failed to parse JSON"⟩) ∧
    (⟨400, "Failed to parse JSON"⟩ : ReqwestError) ≠ ⟨500, "API Error"⟩ ∧
    (⟨400, "Failed to parse JSON"⟩ : ReqwestError) ≠ ⟨400, "Max retries exceeded"⟩ :=
  have h := c2_amended_parse_error_same_variant "example.com" "1.2.3.4"
    "user@example.com" "shkey" envShodanOnly trNotJson "oops" rfl rfl rfl
  ⟨h.1, h.2.1, h.2.2.1, h.2.2.2.1 500, h.2.2.2.2⟩

theorem c7_witness :
    (mainRun inpShodanNoKey).1 = .ok (.ok ()) ∧
    writtenFiles (mainRun inpShodanNoKey).2 = [] ∧
    chatCount (mainRun inpShodanNoKey).2 = 0 ∧
    Event.stderrLine ("Error fetching OSINT data: " ++
      (OsintError.missingApiKey "SHODAN_API_KEY").display) ∈ (mainRun inpShodanNoKey).2 :=
  c7_dispatch_failure_frame inpShodanNoKey "sk-test"
    (.missingApiKey "SHODAN_API_KEY") [] rfl rfl

theorem c9_witness :
    exitCode (mainRun inpShodanNoKey).1 = 0 ∧
    Event.stderrLine ("Error fetching OSINT data: " ++
      (OsintError.missingApiKey "SHODAN_API_KEY").display) ∈ (mainRun inpShodanNoKey).2 :=
  c9_lookup_failure_exits_zero inpShodanNoKey "sk-test"
    (.missingApiKey "SHODAN_API_KEY") [] rfl rfl

theorem c1_witness :
    (mainRun inpChatFails).1 =
      .panicked ("called Result::unwrap() on an Err value: " ++ "boom") ∧
    exitCode (mainRun inpChatFails).1 = 101 ∧
    ("example.com" ++ "_osint_report.json", renderJsonStr (Json.obj [])) ∈
      writtenFiles (mainRun inpChatFails).2 :=
  c1_summarizer_failure_panics inpChatFails "sk-test" (Json.obj [])
    [.httpRequest "https://api.whois.vu/?q=example.com" none] "boom" rfl rfl rfl
